import Mathlib

/-!
Shallow embedding of the mobile.bg car-listing scraper
(`src/scraper/scraper.py`) and proofs about its claimed properties.

The Python code is embedded as executable Lean functions.  Python
exceptions are modelled with `Except PyErr`; Python `None` results are
modelled with `Option`.  Python dictionaries are modelled as
insertion-ordered association lists with in-place update, matching
CPython dict semantics.  The parts of BeautifulSoup and pandas the
scraper touches are modelled at their observed interface, documented at
each definition.
-/

namespace Scraper

/-- Python exception kinds that the scraper's control flow distinguishes. -/
inductive PyErr where
  | attributeError
  | valueError
  deriving Repr, DecidableEq

/-- Source constant `NUM_PROCESSES = 8`. -/
def NUM_PROCESSES : Nat := 8

/-- Source constant `columns`: the closed 26-field record schema, in the
source (Bulgarian) labels and in source order. -/
def columns : List String :=
  [ "Марка"
  , "Модел"
  , "Категория"
  , "Дата на производство"
  , "Тип двигател"
  , "Скоростна кутия"
  , "Кубатура [куб.см]"
  , "Мощност"
  , "Евростандарт"
  , "Пробег [км]"
  , "Пробег с едно зареждане (WLTP) [км]"
  , "Капацитет на батерията [kWh]"
  , "Цвят"
  , "VIN номер"
  , "Цена [лв./EUR]"
  , "Безопасност"
  , "Комфорт"
  , "Други"
  , "Екстериор"
  , "Защита"
  , "Интериор"
  , "Специализирани"
  , "Област [Извън страната]"
  , "Населено място [Държава]"
  , "Посещения"
  , "Заглавие" ]

/-- Source constant `english_columns`: the translated output labels,
positionally matched 1:1 with `columns`. -/
def english_columns : List String :=
  [ "Make"
  , "Model"
  , "Body type"
  , "Production date"
  , "Engine type"
  , "Transmission"
  , "Displacement [cc]"
  , "Power"
  , "Euro standard"
  , "Mileage [km]"
  , "WLTP mileage"
  , "Battery capacity [kWh]"
  , "Color"
  , "VIN number"
  , "Price [BGN/EUR]"
  , "Safety features"
  , "Comfort features"
  , "Other features"
  , "Exterior features"
  , "Protection features"
  , "Interior features"
  , "Specialized features"
  , "Region (Outside country)"
  , "City (Country)"
  , "Views"
  , "Title" ]

/-- Python `s[2:]`: drop the first two code points. -/
def pySliceFrom2 (s : String) : String :=
  String.mk (s.data.drop 2)

/-- Python `str.strip()`: whitespace removed from both ends. -/
def pyStrip (s : String) : String :=
  String.mk (((s.data.dropWhile Char.isWhitespace).reverse.dropWhile Char.isWhitespace).reverse)

/-- Python `str.split(',')`: split on every comma, keeping empty parts. -/
def pySplitComma (s : String) : List String :=
  (s.data.splitOn ',').map String.mk

/-- Python `', '.join(parts)`. -/
def pyJoinCommaSpace (parts : List String) : String :=
  String.mk (List.intercalate ", ".data (parts.map String.data))

/-- A Python dict with string keys whose values are strings or `None`
(`none` here), kept in insertion order like a CPython dict. -/
abbrev PyDict := List (String × Option String)

/-- Python `d[k] = v`: update in place when the key exists, else append. -/
def dictSet (d : PyDict) (k : String) (v : Option String) : PyDict :=
  match d with
  | [] => [(k, v)]
  | (k0, v0) :: rest =>
      if k0 = k then (k0, v) :: rest else (k0, v0) :: dictSet rest k v

/-- Python `k in d`. -/
def dictContains (d : PyDict) (k : String) : Bool :=
  d.any (fun kv => kv.1 = k)

/-- Look a key up: `some v` when the key is present with value `v`
(itself an `Option String`, since Python `None` is a legal value),
`none` when the key is absent. -/
def dictGet? (d : PyDict) (k : String) : Option (Option String) :=
  (d.find? (fun kv => kv.1 = k)).map Prod.snd

/-- A parsed HTML element as BeautifulSoup exposes it to the scraper:
tag name, class attribute string, visible text, and child elements
(searched by `Tag.find`). -/
inductive HNode where
  | mk (name : String) (cls : String) (text : String) (children : List HNode)

/-- Tag name of an element. -/
def HNode.name : HNode → String
  | .mk n _ _ _ => n

/-- Class attribute string of an element. -/
def HNode.cls : HNode → String
  | .mk _ c _ _ => c

/-- Visible text of an element. -/
def HNode.text : HNode → String
  | .mk _ _ t _ => t

/-- Child elements of an element. -/
def HNode.children : HNode → List HNode
  | .mk _ _ _ ch => ch

/-- BeautifulSoup `tag.find('div')` over a child list: first descendant
in document (pre-order) order whose tag name is `div`, returned together
with its following siblings inside its own parent (the nodes a
subsequent `find_next_sibling` walk would visit). -/
def findDivDescendant : List HNode → Option (HNode × List HNode)
  | [] => none
  | HNode.mk nm c t ch :: rest =>
      if nm = "div" then some (HNode.mk nm c t ch, rest)
      else
        match findDivDescendant ch with
        | some r => some r
        | none => findDivDescendant rest

/-- BeautifulSoup `tag.find_next_sibling('div')` over the list of the
tag's following siblings: first sibling named `div`, together with its
own following siblings. -/
def findNextSiblingDiv : List HNode → Option (HNode × List HNode)
  | [] => none
  | n :: rest =>
      if n.name = "div" then some (n, rest) else findNextSiblingDiv rest

/-- The `while` loop of `parse_additional_car_features`: starting at
`feature_div` (with `sibs` its following siblings), while the node is
not a `label`, collect `feature_div.text[2:].strip()` and move to
`feature_div.find_next_sibling()`; stop at a `label` or when there is
no further sibling. -/
def collectFeatures : HNode → List HNode → List String
  | d, sibs =>
      if d.name = "label" then []
      else
        pyStrip (pySliceFrom2 d.text) ::
          (match sibs with
           | [] => []
           | d2 :: rest => collectFeatures d2 rest)

/-- The per-label body of `parse_additional_car_features`, given the
label's following siblings.  Mirrors the source:
`next_sibling = label.find_next_sibling()` (raises `AttributeError`
when there is none); the start node is `next_sibling` itself when it is
a `div`, else `next_sibling.find('div')`, else
`label.find_next_sibling('div')`; then the collected texts are joined
with a comma-space separator. -/
def featureValue (sibs : List HNode) : Except PyErr String :=
  match sibs with
  | [] => .error .attributeError
  | next :: rest =>
      let fd0 : Option (HNode × List HNode) :=
        if next.name ≠ "div" then findDivDescendant next.children
        else some (next, rest)
      let fd : Option (HNode × List HNode) :=
        match fd0 with
        | none => findNextSiblingDiv (next :: rest)
        | some x => some x
      .ok (pyJoinCommaSpace
        (match fd with
         | none => []
         | some (d, s) => collectFeatures d s))

/-- BeautifulSoup `find_all('label', class_='extra_cat')` over the flat
sibling chain that holds the feature-group labels on a detail page:
every label with that class, in order, paired with its following
siblings. -/
def extraCatLabels : List HNode → List (HNode × List HNode)
  | [] => []
  | n :: rest =>
      (if n.name = "label" ∧ n.cls = "extra_cat" then [(n, rest)] else [])
        ++ extraCatLabels rest

/-- Loop body of `parse_additional_car_features` over the found labels:
each label text is assigned its joined feature string; the first raised
exception propagates. -/
def labelEntries : List (HNode × List HNode) → Except PyErr (List (String × String))
  | [] => .ok []
  | (lab, sibs) :: rest =>
      match featureValue sibs with
      | .error e => .error e
      | .ok v =>
          match labelEntries rest with
          | .error e => .error e
          | .ok tail => .ok ((lab.text, v) :: tail)

/-- Source `parse_additional_car_features`, over the sibling chain that
contains the `extra_cat` labels (on the real page markup the labels and
their value nodes are siblings in one chain, which is what we model).
Produces the `(label text, joined features)` pairs the source writes
into the target dict, or the first exception raised. -/
def parse_additional_car_features (chain : List HNode) : Except PyErr (List (String × String)) :=
  labelEntries (extraCatLabels chain)

/-- One cell of a row appended to a pandas DataFrame whose columns are
the schema: `none` is a `NaN` produced by aligning a dict that lacks the
column, `some none` is an explicit Python `None` value, `some (some s)`
is the string `s`. -/
abbrev Cell := Option (Option String)

/-- A row of the scraper's DataFrame: column label paired with cell. -/
abbrev Row := List (String × Cell)

/-- The parts of a parsed detail-page document that
`scrape_offer_data` queries, each as the corresponding BeautifulSoup
lookup returns it (`none` when the element is absent). -/
structure Doc where
  /-- Texts of the `li` elements of `ul.dilarData`, in document order;
  `none` when that `ul` is absent. -/
  dilarData : Option (List String)
  /-- Text of the first `h1`. -/
  h1 : Option String
  /-- Text of `span#details_price`. -/
  detailsPrice : Option String
  /-- Text of `div.adress`. -/
  adress : Option String
  /-- Text of `span.advact`. -/
  advact : Option String
  /-- The flat sibling chain holding the `extra_cat` feature labels. -/
  featureChain : List HNode

/-- Source `parse_main_car_details`.  A `None` soup or an absent
`ul.dilarData` raises `AttributeError` inside the `try`, which the
source converts to `ValueError`.  Otherwise the `li` texts at even
positions are zipped with those at odd positions (Python `zip`
truncates to the shorter) and written into the target dict. -/
def parse_main_car_details (offer_soup : Option Doc) (target : PyDict) : Except PyErr PyDict :=
  match offer_soup with
  | none => .error .valueError
  | some doc =>
      match doc.dilarData with
      | none => .error .valueError
      | some lis =>
          let main_data := lis.enum
          let available_columns := (main_data.filter (fun p => !(p.1 % 2 != 0))).map Prod.snd
          let available_data := (main_data.filter (fun p => p.1 % 2 != 0)).map Prod.snd
          let zipped := available_columns.zip available_data
          let d1 := zipped.foldl (fun d kv => dictSet d kv.1 (some kv.2)) []
          .ok (d1.foldl (fun t kv => dictSet t kv.1 kv.2) target)

/-- Outcome of one `requests.get` attempt inside `get_page`: a parsed
document, or a raised `requests.exceptions.RequestException`. -/
inductive FetchOutcome where
  | success (doc : Doc)
  | requestException

/-- The `for i in range(3)` retry loop of `get_page`, entered at
attempt index `i`: a successful attempt returns its document at once, a
request exception moves to the next attempt, and falling off the loop
returns Python `None`. -/
def get_page_loop (att : Nat → FetchOutcome) (i : Nat) : Option Doc :=
  if _h : i < 3 then
    match att i with
    | .success d => some d
    | .requestException => get_page_loop att (i + 1)
  else none
termination_by 3 - i

/-- Source `get_page`, with the network modelled as the outcome of each
attempt in order. -/
def get_page (att : Nat → FetchOutcome) : Option Doc :=
  get_page_loop att 0

/-- The dict `parsed_data` as `scrape_offer_data` leaves it right
before the row is appended, given that every mandatory lookup
succeeded: title, make, model, price, the comma-split region/city pair
(`None` entries when `div.adress` is absent or short), views, the
feature-group entries, and finally an explicit `None` for every schema
column still missing. -/
def finalDict (make model : String) (doc : Doc) (pd0 : PyDict)
    (h1t pricet advt : String) (feats : List (String × String)) : PyDict :=
  let pd1 := dictSet pd0 "Заглавие" (some (pyStrip h1t))
  let pd2 := dictSet pd1 "Марка" (some (pyStrip make))
  let pd3 := dictSet pd2 "Модел" (some (pyStrip model))
  let pd4 := dictSet pd3 "Цена [лв./EUR]" (some (pyStrip pricet))
  let region_city_data : List String :=
    match doc.adress with
    | none => []
    | some t => pySplitComma t
  let pd5 := dictSet pd4 "Област [Извън страната]" ((region_city_data[0]?).map pyStrip)
  let pd6 := dictSet pd5 "Населено място [Държава]" ((region_city_data[1]?).map pyStrip)
  let pd7 := dictSet pd6 "Посещения" (some advt)
  let pd8 := feats.foldl (fun d kv => dictSet d kv.1 (some kv.2)) pd7
  (columns.filter (fun c => !(dictContains pd8 c))).foldl (fun d c => dictSet d c none) pd8

/-- Core of source `scrape_offer_data` on an already fetched soup:
`Except.ok none` is the ValueError-caught skip (no row appended),
`Except.ok (some row)` is the appended row, `Except.error` is an
uncaught exception.  The appended row follows the pandas semantics of
`data.loc[len(data)] = parsed_data` on a DataFrame whose columns are
`columns`: the dict is aligned to the column index
(`Series(value, index=self.obj.columns)`), so keys outside the schema
are dropped and schema columns missing from the dict would become
`NaN`. -/
def scrapeOfferRecord (make model : String) (offer_soup : Option Doc) : Except PyErr (Option Row) :=
  match parse_main_car_details offer_soup [] with
  | .error _ => .ok none
  | .ok pd0 =>
      match offer_soup with
      | none => .ok none
      | some doc =>
          match doc.h1 with
          | none => .error .attributeError
          | some h1t =>
              match doc.detailsPrice with
              | none => .error .attributeError
              | some pricet =>
                  match doc.advact with
                  | none => .error .attributeError
                  | some advt =>
                      match parse_additional_car_features doc.featureChain with
                      | .error e => .error e
                      | .ok feats =>
                          .ok (some (columns.map (fun c =>
                            (c, dictGet? (finalDict make model doc pd0 h1t pricet advt feats) c))))

/-- Source `scrape_offer_data`: fetch the offer page through
`get_page` (the network modelled per URL and attempt), then either skip
(dataset unchanged), append the one extracted row, or propagate an
uncaught exception. -/
def scrape_offer_data (net : String → Nat → FetchOutcome)
    (make model offer_url : String) (data : List Row) : Except PyErr (List Row) :=
  let offer_soup := get_page (net offer_url)
  match scrapeOfferRecord make model offer_soup with
  | .error e => .error e
  | .ok none => .ok data
  | .ok (some row) => .ok (data ++ [row])

/-- Source `has_next_page`, on the list of following siblings of the
current-page indicator (`a.saveSlink.selected`): there must be a next
sibling at all, and some following sibling must be an `a` with class
string `saveSlink ` (the source writes the class with a trailing
space). -/
def has_next_page (current_page_siblings : List HNode) : Bool :=
  !current_page_siblings.isEmpty &&
    current_page_siblings.any (fun n => n.name == "a" && n.cls == "saveSlink ")

/-- One search-results page as the pagination loop of `scrape_model`
observes it: the offer hrefs collected by `find_all(is_offer_link)` in
page order, and the following siblings of the current-page
indicator. -/
structure ResultPage where
  offers : List String
  pagSiblings : List HNode

/-- The `while True` pagination loop of `scrape_model` over a chain of
result pages, where fetching the next-page href of one page yields the
next page of the chain: collect the current page's offer links, stop
when `has_next_page` is false, else continue on the next page. -/
def scrapeModelPages : List ResultPage → List String
  | [] => []
  | p :: rest =>
      p.offers ++ (if has_next_page p.pagSiblings then scrapeModelPages rest else [])

/-- A chain of result pages is well formed when every page but the last
carries a next-page marker and the last page carries none. -/
def chainWF (chain : List ResultPage) : Prop :=
  ∀ i (h : i < chain.length),
    has_next_page (chain.get ⟨i, h⟩).pagSiblings = decide (i + 1 < chain.length)

/-- Source `chunk_size = len(all_models) // (NUM_PROCESSES * 10)`. -/
def chunk_size (numModels : Nat) : Nat :=
  numModels / (NUM_PROCESSES * 10)

/-- Python `range(0, stop, step)` for a positive step: the
`ceil(stop / step)` multiples of `step` below `stop`. -/
def pyRangeStep (stop step : Nat) : List Nat :=
  List.range' 0 ((stop + step - 1) / step) step

/-- Source `model_subsets = [all_models[i:i + chunk_size] for i in
range(0, len(all_models), chunk_size)]`. -/
def model_subsets (all_models : List α) (cs : Nat) : List (List α) :=
  (pyRangeStep all_models.length cs).map (fun i => (all_models.drop i).take cs)

/-- Outcome of one `scrape_model` call for one combination, as the
worker's retry loop observes it: the rows the call appended to
`process_df` before returning or raising, and whether it returned,
raised `selenium.common.WebDriverException`, or raised any other
exception. -/
inductive AttemptOutcome where
  | success (rows : List Row)
  | driverError (rows : List Row)
  | otherError (rows : List Row)

/-- Rows an attempt appended to the in-memory batch. -/
def AttemptOutcome.rows : AttemptOutcome → List Row
  | .success rs => rs
  | .driverError rs => rs
  | .otherError rs => rs

/-- Whether an attempt raised `WebDriverException`. -/
def isDriverError : AttemptOutcome → Bool
  | .driverError _ => true
  | _ => false

/-- The on-disk state a worker touches: the lines of its
`./temp` per-process csv file, and whether the `./output` file of the
same name exists (the file the header guard tests; the worker never
writes that path). -/
structure WorkerFS where
  tempFile : List (List String)
  outputFileExists : Bool
  deriving DecidableEq, Repr

/-- Csv rendering of one cell (`NaN` and `None` both print empty). -/
def cellCsv : Cell → String
  | none => ""
  | some none => ""
  | some (some s) => s

/-- Csv rendering of one DataFrame row. -/
def rowCsv (r : Row) : List String :=
  r.map (fun kv => cellCsv kv.2)

/-- The flush in `scrape_worker`:
`process_df.to_csv('./temp/partial-<pid>.csv', mode='a',
header=(not os.path.exists('./output/partial-<pid>.csv')))`.
Note the path mismatch in the source: rows are appended to the `temp`
file while the header guard tests the `output` path. -/
def flushTempCsv (fs : WorkerFS) (process_df : List Row) : WorkerFS :=
  { tempFile := fs.tempFile
      ++ (if fs.outputFileExists then [] else [columns])
      ++ process_df.map rowCsv
  , outputFileExists := fs.outputFileExists }

/-- The `for i in range(3)` retry loop of `scrape_worker` for one
combination, entered at attempt index `i` with batch `process_df`:
a successful attempt flushes the batch and resets it (the `else:
break`), a `WebDriverException` leaves the partially appended rows in
the batch and retries, any other exception propagates (third component
`true`), and exhausting the range abandons the combination with the
batch kept and nothing flushed. -/
def processCombination (att : Nat → AttemptOutcome) (process_df : List Row)
    (fs : WorkerFS) (i : Nat) : List Row × WorkerFS × Bool :=
  if _h : i < 3 then
    match att i with
    | .success rs => ([], flushTempCsv fs (process_df ++ rs), false)
    | .driverError rs => processCombination att (process_df ++ rs) fs (i + 1)
    | .otherError rs => (process_df ++ rs, fs, true)
  else (process_df, fs, false)
termination_by 3 - i

/-- The per-combination loop of `scrape_worker` over the worker's
chunk, one attempt oracle per combination: an uncaught exception aborts
the worker, otherwise the loop continues with the updated batch and
file state. -/
def scrape_worker_go (atts : List (Nat → AttemptOutcome)) (process_df : List Row)
    (fs : WorkerFS) : WorkerFS × Bool :=
  match atts with
  | [] => (fs, false)
  | att :: rest =>
      let r := processCombination att process_df fs 0
      if r.2.2 then (r.2.1, true)
      else scrape_worker_go rest r.1 r.2.1

/-- Source `scrape_worker` on its chunk: empty initial batch, empty
`temp` file (the run starts fresh), the existence of the checked
`./output` file taken as a parameter of the environment. -/
def scrape_worker (outputFileExists0 : Bool) (atts : List (Nat → AttemptOutcome)) :
    WorkerFS × Bool :=
  scrape_worker_go atts [] { tempFile := [], outputFileExists := outputFileExists0 }

/-- Rows accumulated in the batch by the first `k` attempts of one
combination (each failed attempt leaves its partial rows in
`process_df`). -/
def attRowsUpTo (att : Nat → AttemptOutcome) : Nat → List Row
  | 0 => []
  | k + 1 => attRowsUpTo att k ++ (att k).rows

/-- A Python value as far as the merge step compares them: a string, or
a list of strings.  Python `==` across the two kinds is `False`. -/
inductive PyVal where
  | str (s : String)
  | strList (l : List String)
  deriving DecidableEq, Repr

/-- Python `list.remove(v)`: drop the first element equal to `v`;
`none` models the `ValueError` raised when no element equals `v`. -/
def pyListRemove (xs : List PyVal) (v : PyVal) : Option (List PyVal) :=
  match xs with
  | [] => none
  | x :: rest =>
      if x = v then some rest else (pyListRemove rest v).map (fun r => x :: r)

/-- Identity key of a row under a column subset, as
`drop_duplicates(subset=...)` compares rows. -/
def rowKey (subset : List PyVal) (r : Row) : List Cell :=
  subset.map (fun c =>
    match c with
    | .str s =>
        match r.find? (fun kv => kv.1 == s) with
        | some kv => kv.2
        | none => none
    | .strList _ => none)

/-- Pandas `drop_duplicates(subset=...)`: keep the first row of every
identity-key class, in order. -/
def dropDuplicates (subset : List PyVal) : List Row → List (List Cell) → List Row
  | [], _ => []
  | r :: rest, seen =>
      let k := rowKey subset r
      if seen.contains k then dropDuplicates subset rest seen
      else r :: dropDuplicates subset rest (k :: seen)

/-- The dedup tail of `main` (source lines 296 to 298): copy the final
DataFrame's column sequence, call `.remove(['Model', 'Views'])` on the
copy, then `drop_duplicates(subset=...)`.  On a pandas `Index` the
`remove` method does not even exist (`AttributeError`); under the most
generous reading, a Python list of the 26 column names, `remove` raises
`ValueError` because the 2-element list `['Model', 'Views']` equals no
element.  We model the generous list reading, so the statement raises
`ValueError` and the dedup call is never reached. -/
def mergeFinalize (final_df : List Row) : Except PyErr (List Row) :=
  let duplication_identification_cols := english_columns.map PyVal.str
  match pyListRemove duplication_identification_cols (PyVal.strList ["Model", "Views"]) with
  | none => .error .valueError
  | some dup_cols => .ok (dropDuplicates dup_cols final_df [])

/-! ## Concrete fixtures used by witnesses and counterexamples -/

/-- A detail-page document with every queried element present and an
empty feature region. -/
def docFull : Doc :=
  { dilarData := some ["Категория", "Джип", "Пробег [км]", "100000 км"]
  , h1 := some " Audi A4 "
  , detailsPrice := some "10000 лв."
  , adress := some "София, София"
  , advact := some "55"
  , featureChain := [] }

/-- A detail-page document whose `ul.dilarData` block is absent. -/
def docNoMain : Doc :=
  { dilarData := none
  , h1 := some "Audi A4"
  , detailsPrice := some "10000 лв."
  , adress := none
  , advact := some "55"
  , featureChain := [] }

/-- Network oracle: first attempt raises, second succeeds. -/
def attRetryOnce : Nat → FetchOutcome :=
  fun i => if i = 0 then .requestException else .success docFull

/-- Network oracle: every attempt raises a request exception. -/
def netAllFail : String → Nat → FetchOutcome :=
  fun _ _ => .requestException

/-- Network oracle: every fetch immediately returns `docNoMain`. -/
def netNoMain : String → Nat → FetchOutcome :=
  fun _ _ => .success docNoMain

/-- A three-page result chain: pages 1 and 2 carry a next-page link
among the current indicator's following siblings (page 2 behind a
non-link sibling), page 3 carries none. -/
def chain3 : List ResultPage :=
  [ { offers := ["//o1", "//o2"]
    , pagSiblings := [HNode.mk "a" "saveSlink " "2" []] }
  , { offers := ["//o3"]
    , pagSiblings := [HNode.mk "span" "" "" [], HNode.mk "a" "saveSlink " "3" []] }
  , { offers := ["//o4", "//o5"]
    , pagSiblings := [] } ]

/-- The record emitted for `docFull` (empty outside the completing
branch, which is never taken for this document). -/
def rowFull : Row :=
  match scrapeOfferRecord "Audi" " A4 " (some docFull) with
  | .ok (some r) => r
  | _ => []

/-- A feature region in which the first label has zero value-node
siblings of its own: its immediate next sibling is the second label,
whose single value node follows. -/
def chainCE : List HNode :=
  [ HNode.mk "label" "extra_cat" "Безопасност" []
  , HNode.mk "label" "extra_cat" "Комфорт" []
  , HNode.mk "div" "" "--X" [] ]

/-- A fresh worker file state: empty `temp` file, no `./output` file. -/
def fs0 : WorkerFS :=
  { tempFile := [], outputFileExists := false }

/-- A fully populated row (every schema column mapped to a string). -/
def rowX : Row :=
  columns.map (fun c => (c, some (some "x")))

/-- Attempt oracle: every attempt of the combination succeeds and
appends one row. -/
def attOk : Nat → AttemptOutcome :=
  fun _ => .success [rowX]

/-- Attempt oracle: the first attempt raises `WebDriverException`, the
second succeeds with no rows. -/
def attRetryDriver : Nat → AttemptOutcome :=
  fun i => if i = 0 then .driverError [] else .success []

/-! ## Helper lemmas -/

theorem get_page_unroll (att : Nat → FetchOutcome) :
    get_page att =
      match att 0 with
      | .success d => some d
      | .requestException =>
        match att 1 with
        | .success d => some d
        | .requestException =>
          match att 2 with
          | .success d => some d
          | .requestException => none := by
  simp only [get_page]
  rw [get_page_loop]
  simp only [show (0 : Nat) < 3 by omega, dite_true]
  cases att 0 with
  | success d => rfl
  | requestException =>
      rw [get_page_loop]
      simp only [show (1 : Nat) < 3 by omega, dite_true]
      cases att 1 with
      | success d => rfl
      | requestException =>
          rw [get_page_loop]
          simp only [show (2 : Nat) < 3 by omega, dite_true]
          cases att 2 with
          | success d => rfl
          | requestException =>
              rw [get_page_loop]
              simp

theorem range'_add_step_eq_map (cs : Nat) :
    ∀ (k s : Nat), List.range' (s + cs) k cs = (List.range' s k cs).map (fun i => i + cs) := by
  intro k
  induction k with
  | zero => intro s; rfl
  | succ k ih =>
      intro s
      show (s + cs) :: List.range' (s + cs + cs) k cs
        = (s + cs) :: (List.range' (s + cs) k cs).map (fun i => i + cs)
      rw [ih (s + cs)]

theorem pyRangeStep_zero (cs : Nat) (h : 1 ≤ cs) : pyRangeStep 0 cs = [] := by
  unfold pyRangeStep
  rw [show (0 + cs - 1) / cs = 0 from Nat.div_eq_of_lt (by omega)]
  rfl

theorem pyRangeStep_succ (n cs : Nat) (hcs : 1 ≤ cs) (hn : 1 ≤ n) :
    pyRangeStep n cs = 0 :: (pyRangeStep (n - cs) cs).map (fun i => i + cs) := by
  unfold pyRangeStep
  have hk : (n + cs - 1) / cs = (n - cs + cs - 1) / cs + 1 := by
    rcases Nat.le_total n cs with h | h
    · rw [show n - cs = 0 from by omega,
          show (0 + cs - 1) / cs = 0 from Nat.div_eq_of_lt (by omega),
          show n + cs - 1 = (n - 1) + cs from by omega,
          Nat.add_div_right _ (by omega),
          show (n - 1) / cs = 0 from Nat.div_eq_of_lt (by omega)]
    · rw [show n + cs - 1 = (n - 1) + cs from by omega,
          Nat.add_div_right _ (by omega),
          show n - cs + cs - 1 = n - 1 from by omega]
  rw [hk]
  show 0 :: List.range' (0 + cs) ((n - cs + cs - 1) / cs) cs = _
  rw [range'_add_step_eq_map]

theorem model_subsets_cons (l : List α) (cs : Nat) (hcs : 1 ≤ cs) (hl : l ≠ []) :
    model_subsets l cs = l.take cs :: model_subsets (l.drop cs) cs := by
  have hn : 1 ≤ l.length := by
    cases l with
    | nil => exact absurd rfl hl
    | cons a t => simp
  unfold model_subsets
  rw [pyRangeStep_succ _ _ hcs hn]
  simp only [List.map_cons, List.map_map, List.drop_zero, List.length_drop]
  congr 1
  refine List.map_congr_left ?_
  intro i _
  simp only [Function.comp_apply, List.drop_drop]
  rw [Nat.add_comm i cs]

theorem model_subsets_join (cs : Nat) (hcs : 1 ≤ cs) (l : List α) :
    (model_subsets l cs).flatten = l := by
  have H : ∀ (n : Nat) (t : List α), t.length ≤ n → (model_subsets t cs).flatten = t := by
    intro n
    induction n with
    | zero =>
        intro t ht
        have : t = [] := List.length_eq_zero.mp (by omega)
        subst this
        simp [model_subsets, pyRangeStep_zero cs hcs]
    | succ n ih =>
        intro t ht
        cases t with
        | nil => simp [model_subsets, pyRangeStep_zero cs hcs]
        | cons a r =>
            rw [model_subsets_cons _ _ hcs (by simp), List.flatten_cons,
                ih ((a :: r).drop cs) (by simp at ht ⊢; omega),
                List.take_append_drop]
  exact H l.length l le_rfl

theorem isDriverError_eq_true_iff (o : AttemptOutcome) :
    isDriverError o = true ↔ ∃ rs, o = .driverError rs := by
  cases o <;> simp [isDriverError]

theorem processCombination_unroll (att : Nat → AttemptOutcome) (df : List Row) (fs : WorkerFS) :
    processCombination att df fs 0 =
      match att 0 with
      | .success rs => ([], flushTempCsv fs (df ++ rs), false)
      | .otherError rs => (df ++ rs, fs, true)
      | .driverError rs =>
        match att 1 with
        | .success rs2 => ([], flushTempCsv fs (df ++ rs ++ rs2), false)
        | .otherError rs2 => (df ++ rs ++ rs2, fs, true)
        | .driverError rs2 =>
          match att 2 with
          | .success rs3 => ([], flushTempCsv fs (df ++ rs ++ rs2 ++ rs3), false)
          | .otherError rs3 => (df ++ rs ++ rs2 ++ rs3, fs, true)
          | .driverError rs3 => (df ++ rs ++ rs2 ++ rs3, fs, false) := by
  cases h0 : att 0 <;> cases h1 : att 1 <;> cases h2 : att 2 <;>
    simp [processCombination.eq_def, h0, h1, h2]

theorem collectFeatures_label (d : HNode) (sibs : List HNode) (hd : d.name = "label") :
    collectFeatures d sibs = [] := by
  simp [collectFeatures.eq_def, hd]

theorem collectFeatures_nil (d : HNode) (hd : d.name ≠ "label") :
    collectFeatures d [] = [pyStrip (pySliceFrom2 d.text)] := by
  simp [collectFeatures.eq_def, hd]

theorem collectFeatures_cons (d d2 : HNode) (rest : List HNode) (hd : d.name ≠ "label") :
    collectFeatures d (d2 :: rest) = pyStrip (pySliceFrom2 d.text) :: collectFeatures d2 rest := by
  conv_lhs => rw [collectFeatures.eq_def]
  simp [hd]

theorem collectFeatures_walk (tail : List HNode)
    (ht : tail = [] ∨ ∃ lN r, tail = lN :: r ∧ lN.name = "label") :
    ∀ (vals : List HNode), (∀ x ∈ vals, x.name ≠ "label") →
      ∀ d : HNode, d.name ≠ "label" →
      collectFeatures d (vals ++ tail)
        = pyStrip (pySliceFrom2 d.text)
            :: vals.map (fun v => pyStrip (pySliceFrom2 v.text)) := by
  intro vals
  induction vals with
  | nil =>
      intro _ d hd
      rcases ht with rfl | ⟨lN, r, rfl, hlN⟩
      · simp [collectFeatures_nil d hd]
      · simp [collectFeatures_cons d lN r hd, collectFeatures_label lN r hlN]
  | cons v vs ih =>
      intro hv d hd
      have hvn : v.name ≠ "label" := hv v (by simp)
      have ihh := ih (fun x hx => hv x (by simp [hx])) v hvn
      simp [List.cons_append, collectFeatures_cons d v _ hd, ihh]

theorem featureValue_div_start (v : HNode) (vrest : List HNode) (hv : v.name = "div") :
    featureValue (v :: vrest) = .ok (pyJoinCommaSpace (collectFeatures v vrest)) := by
  simp [featureValue, hv]

theorem findNextSiblingDiv_none (l : List HNode) (h : ∀ x ∈ l, x.name ≠ "div") :
    findNextSiblingDiv l = none := by
  induction l with
  | nil => rfl
  | cons n rest ih =>
      simp only [findNextSiblingDiv]
      rw [if_neg (h n (by simp))]
      exact ih (fun x hx => h x (by simp [hx]))

theorem featureValue_no_div (lab2 : HNode) (rest : List HNode)
    (h2 : lab2.name = "label") (hch : lab2.children = [])
    (hnd : ∀ x ∈ lab2 :: rest, x.name ≠ "div") :
    featureValue (lab2 :: rest) = .ok "" := by
  have hfd : findDivDescendant lab2.children = none := by
    rw [hch]
    simp [findDivDescendant]
  have hfs : findNextSiblingDiv (lab2 :: rest) = none := findNextSiblingDiv_none _ hnd
  simp [featureValue, h2, hfd, hfs]
  rfl

theorem dictContains_iff (d : PyDict) (k : String) :
    dictContains d k = true ↔ ∃ p ∈ d, p.1 = k := by
  simp [dictContains, List.any_eq_true]

theorem mem_dictSet_self (d : PyDict) (k : String) (v : Option String) :
    ∃ p ∈ dictSet d k v, p.1 = k := by
  induction d with
  | nil => exact ⟨(k, v), by simp [dictSet]⟩
  | cons kv rest ih =>
      obtain ⟨k0, v0⟩ := kv
      by_cases h : k0 = k
      · exact ⟨(k0, v), by simp [dictSet, h]⟩
      · obtain ⟨p, hp, hpk⟩ := ih
        exact ⟨p, by simp [dictSet, h, hp], hpk⟩

theorem mem_dictSet_mono (d : PyDict) (k k2 : String) (v : Option String)
    (h : ∃ p ∈ d, p.1 = k2) : ∃ p ∈ dictSet d k v, p.1 = k2 := by
  induction d with
  | nil => simp at h
  | cons kv rest ih =>
      obtain ⟨k0, v0⟩ := kv
      by_cases hk : k0 = k
      · rcases h with ⟨p, hp, hpk⟩
        rcases List.mem_cons.mp hp with rfl | hp2
        · exact ⟨(k0, v), by simp [dictSet, hk], hpk⟩
        · exact ⟨p, by simp [dictSet, hk, hp2], hpk⟩
      · rcases h with ⟨p, hp, hpk⟩
        rcases List.mem_cons.mp hp with rfl | hp2
        · exact ⟨(k0, v0), by simp [dictSet, hk], hpk⟩
        · obtain ⟨q, hq, hqk⟩ := ih ⟨p, hp2, hpk⟩
          exact ⟨q, by simp [dictSet, hk, hq], hqk⟩

theorem contains_fill (cs : List String) :
    ∀ (d : PyDict) (c : String), (c ∈ cs ∨ dictContains d c = true) →
      dictContains (cs.foldl (fun acc x => dictSet acc x none) d) c = true := by
  induction cs with
  | nil =>
      intro d c h
      rcases h with h | h
      · simp at h
      · simpa using h
  | cons a t ih =>
      intro d c h
      show dictContains (t.foldl (fun acc x => dictSet acc x none) (dictSet d a none)) c = true
      apply ih
      rcases h with h | h
      · rcases List.mem_cons.mp h with rfl | h2
        · exact Or.inr ((dictContains_iff _ _).mpr (mem_dictSet_self d c none))
        · exact Or.inl h2
      · exact Or.inr ((dictContains_iff _ _).mpr
          (mem_dictSet_mono d a c none ((dictContains_iff _ _).mp h)))

theorem fillMissing_contains (base : PyDict) (c : String) (hc : c ∈ columns) :
    dictContains ((columns.filter (fun x => !(dictContains base x))).foldl
        (fun d x => dictSet d x none) base) c = true := by
  apply contains_fill
  by_cases h : dictContains base c = true
  · exact Or.inr h
  · refine Or.inl (List.mem_filter.mpr ⟨hc, ?_⟩)
    simp only [Bool.not_eq_true] at h
    simp [h]

theorem dictGet?_ne_none (d : PyDict) (k : String) (h : dictContains d k = true) :
    dictGet? d k ≠ none := by
  obtain ⟨p, hp, hpk⟩ := (dictContains_iff d k).mp h
  unfold dictGet?
  have hs : (d.find? (fun kv => kv.1 = k)).isSome := by
    rw [List.find?_isSome]
    exact ⟨p, hp, by simp [hpk]⟩
  intro hcon
  rw [Option.map_eq_none'] at hcon
  rw [hcon] at hs
  simp at hs

theorem finalDict_contains (make model : String) (doc : Doc) (pd0 : PyDict)
    (h1t pricet advt : String) (feats : List (String × String)) (c : String)
    (hc : c ∈ columns) :
    dictContains (finalDict make model doc pd0 h1t pricet advt feats) c = true := by
  unfold finalDict
  exact fillMissing_contains _ c hc

/-! ## Claim theorems -/

/-- C6: after the shuffle, the Work Distributor slices the combination
list into contiguous chunks of size
`len(all_models) // (NUM_PROCESSES * 10)`; whenever that computed chunk
size is at least 1 the concatenation of the produced chunks is exactly
the shuffled input list (every combination assigned exactly once), and
for 81 combinations with 8 workers the chunk size is `81 // 80 = 1`. -/
theorem distributor_chunking (l : List α) (h : 1 ≤ chunk_size l.length) :
    (model_subsets l (chunk_size l.length)).flatten = l ∧ chunk_size 81 = 1 :=
  ⟨model_subsets_join _ h l, rfl⟩

/-- C6 witness: 80 combinations give chunk size `80 // 80 = 1` and the
produced chunks concatenate back to the input. -/
theorem distributor_chunking_witness :
    1 ≤ chunk_size (List.range 80).length ∧
      (model_subsets (List.range 80) (chunk_size (List.range 80).length)).flatten
        = List.range 80 :=
  ⟨by decide, (distributor_chunking (List.range 80) (by decide)).1⟩

/-- C7: on every finite well-formed chain of result pages (every page
but the last carries a next-page marker among the current-page
indicator's following siblings, the last page carries none), the
pagination walk of `scrape_model` yields exactly the offer links of
every page, in page order, and terminates on the last page. -/
theorem paginator_yields_all_pages (chain : List ResultPage) (hwf : chainWF chain) :
    scrapeModelPages chain = (chain.map ResultPage.offers).flatten := by
  induction chain with
  | nil => rfl
  | cons p rest ih =>
      have h0 := hwf 0 (by simp)
      cases rest with
      | nil =>
          have h0' : has_next_page p.pagSiblings = false := by
            simpa [List.get] using h0
          show p.offers ++ (if has_next_page p.pagSiblings then scrapeModelPages [] else [])
              = ([p].map ResultPage.offers).flatten
          rw [h0']
          simp
      | cons q t =>
          have h0' : has_next_page p.pagSiblings = true := by
            simpa [List.get] using h0
          have ihh : scrapeModelPages (q :: t) = ((q :: t).map ResultPage.offers).flatten := by
            apply ih
            intro i hi
            have hlt : i + 1 < (p :: q :: t).length := by
              simp only [List.length_cons] at hi ⊢
              omega
            have h1 := hwf (i + 1) hlt
            simp only [List.get_cons_succ] at h1
            rw [h1]
            refine decide_eq_decide.mpr ?_
            simp only [List.length_cons]
            omega
          show p.offers ++ (if has_next_page p.pagSiblings then scrapeModelPages (q :: t) else [])
              = ((p :: q :: t).map ResultPage.offers).flatten
          rw [h0', ihh]
          simp

/-- C7 witness: the three-page fixture yields the listings of all three
pages in page order. -/
theorem paginator_yields_all_pages_witness :
    scrapeModelPages chain3 = ["//o1", "//o2", "//o3", "//o4", "//o5"] := by
  rw [paginator_yields_all_pages chain3 (by
    intro i h
    have h3 : i < 3 := by simpa [chain3] using h
    interval_cases i <;> rfl)]
  rfl

/-- C3: for one combination the worker makes at most 3 attempts (the
outcome depends only on the first three attempt results); when attempt
`k` succeeds after `k` driver-level failures the loop stops retrying,
flushes the batch collected so far to the worker's csv file and resets
the in-memory batch; a non-driver exception is not retried but
propagates; and after 3 driver-level failures the combination is
abandoned (nothing flushed) while the worker proceeds to the next
combination of its chunk instead of aborting. -/
theorem worker_retry_policy (att att2 : Nat → AttemptOutcome) (df : List Row)
    (fs : WorkerFS) (k : Nat) (rs : List Row) (rest : List (Nat → AttemptOutcome)) :
    ((∀ i, i < 3 → att i = att2 i) →
        processCombination att df fs 0 = processCombination att2 df fs 0)
    ∧ (k < 3 → (∀ j, j < k → isDriverError (att j) = true) → att k = .success rs →
        processCombination att df fs 0
          = ([], flushTempCsv fs (df ++ attRowsUpTo att k ++ rs), false))
    ∧ (k < 3 → (∀ j, j < k → isDriverError (att j) = true) → att k = .otherError rs →
        processCombination att df fs 0
          = (df ++ attRowsUpTo att k ++ rs, fs, true))
    ∧ ((∀ i, i < 3 → isDriverError (att i) = true) →
        processCombination att df fs 0 = (df ++ attRowsUpTo att 3, fs, false)
        ∧ scrape_worker_go (att :: rest) df fs
            = scrape_worker_go rest (df ++ attRowsUpTo att 3) fs) := by
  refine ⟨?_, ?_, ?_, ?_⟩
  · intro he
    rw [processCombination_unroll att, processCombination_unroll att2,
        he 0 (by omega), he 1 (by omega), he 2 (by omega)]
  · intro hk hd hs
    interval_cases k
    · rw [processCombination_unroll, hs]
      simp [attRowsUpTo]
    · obtain ⟨r0, h0⟩ := (isDriverError_eq_true_iff _).mp (hd 0 (by omega))
      rw [processCombination_unroll, h0, hs]
      simp [attRowsUpTo, h0, AttemptOutcome.rows]
    · obtain ⟨r0, h0⟩ := (isDriverError_eq_true_iff _).mp (hd 0 (by omega))
      obtain ⟨r1, h1⟩ := (isDriverError_eq_true_iff _).mp (hd 1 (by omega))
      rw [processCombination_unroll, h0, h1, hs]
      simp [attRowsUpTo, h0, h1, AttemptOutcome.rows]
  · intro hk hd hs
    interval_cases k
    · rw [processCombination_unroll, hs]
      simp [attRowsUpTo]
    · obtain ⟨r0, h0⟩ := (isDriverError_eq_true_iff _).mp (hd 0 (by omega))
      rw [processCombination_unroll, h0, hs]
      simp [attRowsUpTo, h0, AttemptOutcome.rows]
    · obtain ⟨r0, h0⟩ := (isDriverError_eq_true_iff _).mp (hd 0 (by omega))
      obtain ⟨r1, h1⟩ := (isDriverError_eq_true_iff _).mp (hd 1 (by omega))
      rw [processCombination_unroll, h0, h1, hs]
      simp [attRowsUpTo, h0, h1, AttemptOutcome.rows]
  · intro hd
    obtain ⟨r0, h0⟩ := (isDriverError_eq_true_iff _).mp (hd 0 (by omega))
    obtain ⟨r1, h1⟩ := (isDriverError_eq_true_iff _).mp (hd 1 (by omega))
    obtain ⟨r2, h2⟩ := (isDriverError_eq_true_iff _).mp (hd 2 (by omega))
    have hpc : processCombination att df fs 0 = (df ++ attRowsUpTo att 3, fs, false) := by
      rw [processCombination_unroll, h0, h1, h2]
      simp [attRowsUpTo, h0, h1, h2, AttemptOutcome.rows]
    refine ⟨hpc, ?_⟩
    simp only [scrape_worker_go, hpc]
    simp

/-- C3 witness: a combination whose first attempt raises
`WebDriverException` and whose second attempt succeeds is flushed (the
header plus nothing, since no rows were collected) with the batch
reset, after exactly two attempts. -/
theorem worker_retry_policy_witness :
    processCombination attRetryDriver [] fs0 0
      = ([], { tempFile := [columns], outputFileExists := false }, false) := by
  have h := (worker_retry_policy attRetryDriver attRetryDriver [] fs0 1 [] []).2.1
    (by omega) (fun j hj => by interval_cases j; rfl) rfl
  simpa [attRowsUpTo, attRetryDriver, AttemptOutcome.rows, flushTempCsv, fs0] using h

/-- C9: contrary to the claim, the header row is written on every
flush, not only the first: the header guard tests
`./output/partial-<pid>.csv` while the rows are appended to
`./temp/partial-<pid>.csv`, so with the `./output` file absent (nothing
ever creates it) a worker that flushes two combinations writes the
column header twice into its partial file. -/
theorem worker_csv_header_every_flush :
    (scrape_worker false [attOk, attOk]).1.tempFile
        = [columns, rowCsv rowX, columns, rowCsv rowX]
    ∧ ((scrape_worker false [attOk, attOk]).1.tempFile.count columns = 2) := by
  have hpc : ∀ (df : List Row) (fs : WorkerFS),
      processCombination attOk df fs 0 = ([], flushTempCsv fs (df ++ [rowX]), false) := by
    intro df fs
    rw [processCombination_unroll]
    rfl
  constructor
  · show (scrape_worker_go [attOk, attOk] [] fs0).1.tempFile = _
    rw [scrape_worker_go, hpc]
    rw [scrape_worker_go, hpc]
    rfl
  · show ((scrape_worker_go [attOk, attOk] [] fs0).1.tempFile.count columns) = 2
    rw [scrape_worker_go, hpc]
    rw [scrape_worker_go, hpc]
    show List.count columns ([columns] ++ [rowCsv rowX] ++ ([columns] ++ [rowCsv rowX])) = 2
    have hne : rowCsv rowX ≠ columns := by decide
    simp [List.count_cons, hne]

/-- C2: whenever the extractor emits a record (the main-attributes step
having succeeded and no later mandatory lookup having raised), the
emitted record's key sequence is exactly the closed 26-column schema —
the pandas row alignment keeps exactly the schema columns, dropping any
key outside the schema — and no cell of the row is a missing-key NaN:
every schema field is present in the dict (the missing-column fill
wrote an explicit `None` for any unpopulated field). -/
theorem record_schema_closed (make model : String) (osoup : Option Doc) (row : Row)
    (h : scrapeOfferRecord make model osoup = .ok (some row)) :
    row.map Prod.fst = columns ∧ ∀ kv ∈ row, kv.2 ≠ none := by
  unfold scrapeOfferRecord at h
  cases hp : parse_main_car_details osoup [] with
  | error e => simp [hp] at h
  | ok pd0 =>
      simp only [hp] at h
      cases osoup with
      | none => simp at h
      | some doc =>
          cases hh1 : doc.h1 with
          | none => simp [hh1] at h
          | some h1t =>
              simp only [hh1] at h
              cases hpr : doc.detailsPrice with
              | none => simp [hpr] at h
              | some pricet =>
                  simp only [hpr] at h
                  cases hav : doc.advact with
                  | none => simp [hav] at h
                  | some advt =>
                      simp only [hav] at h
                      cases hfe : parse_additional_car_features doc.featureChain with
                      | error e => simp [hfe] at h
                      | ok feats =>
                          simp only [hfe] at h
                          have hrow : row = columns.map (fun c =>
                              (c, dictGet? (finalDict make model doc pd0 h1t pricet advt feats) c)) := by
                            simpa using h.symm
                          subst hrow
                          constructor
                          · rw [List.map_map]
                            show List.map id columns = columns
                            exact List.map_id columns
                          · intro kv hkv
                            simp only [List.mem_map] at hkv
                            obtain ⟨c, hc, rfl⟩ := hkv
                            exact dictGet?_ne_none _ _
                              (finalDict_contains make model doc pd0 h1t pricet advt feats c hc)

/-- C2 witness: on a fully populated concrete document the emitted
record's keys are exactly the 26 schema columns and no cell is a
missing-key NaN. -/
theorem record_schema_closed_witness :
    rowFull.map Prod.fst = columns ∧ ∀ kv ∈ rowFull, kv.2 ≠ none :=
  record_schema_closed "Audi" " A4 " (some docFull) rowFull rfl

/-- C5 (amended): when a feature-group label's first following sibling
is a value (`div`) node, the parser walks forward through the siblings
until the next label node, collecting each sibling's text with its
first two characters stripped (and surrounding whitespace trimmed) and
joining the collected texts with a comma-space separator — so two value
nodes whose stripped texts are `A` and `B` yield the joined string
`A, B`; and a label followed by zero value-node siblings yields the
empty string (not the no-value sentinel) provided no `div` node occurs
among the label's following siblings or inside its childless immediate
label sibling — when a later `div` does occur, the parser instead skips
ahead to it and collects the following group's values. -/
theorem feature_group_parser_spec (v lab2 : HNode) (vals tail rest : List HNode) :
    (v.name = "div" → (∀ x ∈ vals, x.name ≠ "label") →
      (tail = [] ∨ ∃ lN r, tail = lN :: r ∧ lN.name = "label") →
      featureValue (v :: (vals ++ tail))
        = .ok (pyJoinCommaSpace ((v :: vals).map (fun d => pyStrip (pySliceFrom2 d.text)))))
    ∧ (lab2.name = "label" → lab2.children = [] → (∀ x ∈ lab2 :: rest, x.name ≠ "div") →
      featureValue (lab2 :: rest) = .ok "") := by
  constructor
  · intro hv hvals ht
    rw [featureValue_div_start v _ hv,
        collectFeatures_walk tail ht vals hvals v (by simp [hv])]
    simp
  · intro h2 hch hnd
    exact featureValue_no_div lab2 rest h2 hch hnd

/-- C5 counterexample: in `chainCE` the first label is followed by zero
value-node siblings — its immediate next sibling is the second label —
yet the parser assigns it the stripped text of the second group's value
node (`X`), not the empty string the claim requires:
`label.find_next_sibling('div')` skips past the second label. -/
theorem feature_group_zero_sibs_counterexample :
    parse_additional_car_features chainCE
      = .ok [("Безопасност", "X"), ("Комфорт", "X")]
    ∧ "X" ≠ "" := by
  constructor
  · simp only [parse_additional_car_features, chainCE, extraCatLabels, labelEntries,
      featureValue, findDivDescendant, findNextSiblingDiv, HNode.name, HNode.cls,
      HNode.text, HNode.children]
    norm_num
    decide
  · decide

/-- C5 witness: a label whose two following value nodes carry texts
stripping to `A` and `B` (then the next label) yields `A, B`; a label
immediately followed by the final, childless label with no div after it
yields the empty string. -/
theorem feature_group_parser_spec_witness :
    featureValue
        [ HNode.mk "div" "" "--A" []
        , HNode.mk "div" "" "--B" []
        , HNode.mk "label" "extra_cat" "Интериор" [] ] = .ok "A, B"
    ∧ featureValue [HNode.mk "label" "extra_cat" "Специализирани" []] = .ok "" := by
  constructor
  · have h := (feature_group_parser_spec (HNode.mk "div" "" "--A" [])
        (HNode.mk "div" "" "--A" []) [HNode.mk "div" "" "--B" []]
        [HNode.mk "label" "extra_cat" "Интериор" []] []).1
        rfl
        (by intro x hx; simp at hx; subst hx; decide)
        (Or.inr ⟨HNode.mk "label" "extra_cat" "Интериор" [], [], rfl, rfl⟩)
    simp only [List.cons_append, List.nil_append] at h
    rw [h]
    exact congrArg Except.ok (by decide)
  · exact (feature_group_parser_spec (HNode.mk "div" "" "--A" [])
        (HNode.mk "label" "extra_cat" "Специализирани" []) [] [] []).2
        rfl rfl
        (by intro x hx; simp at hx; subst hx; decide)

/-- C1: the claimed Merge-step deduplication never happens.  The column
sequence removal `duplication_identification_cols.remove(['Model',
'Views'])` raises for every input dataset (the 2-element list equals no
column name), so the merge step errors out before `drop_duplicates`
runs and no deduplicated FinalDataset is produced. -/
theorem mergeFinalize_always_raises (final_df : List Row) :
    mergeFinalize final_df = .error .valueError := by
  rfl

/-- C8: the Page Fetcher's result depends only on the outcomes of the
first three fetch attempts, the first successful attempt's parsed
document is returned at once (earlier attempts having raised request
exceptions), and when all three attempts raise, a nil document is
returned to the caller rather than an exception. -/
theorem get_page_retry_spec (att att2 : Nat → FetchOutcome) (k : Nat) (d : Doc) :
    ((∀ i, i < 3 → att i = att2 i) → get_page att = get_page att2)
    ∧ (k < 3 → (∀ j, j < k → att j = .requestException) →
        att k = .success d → get_page att = some d)
    ∧ ((∀ i, i < 3 → att i = .requestException) → get_page att = none) := by
  refine ⟨?_, ?_, ?_⟩
  · intro he
    rw [get_page_unroll att, get_page_unroll att2,
        he 0 (by omega), he 1 (by omega), he 2 (by omega)]
  · intro hk hprev hsucc
    interval_cases k
    · rw [get_page_unroll, hsucc]
    · rw [get_page_unroll, hprev 0 (by omega), hsucc]
    · rw [get_page_unroll, hprev 0 (by omega), hprev 1 (by omega), hsucc]
  · intro hall
    rw [get_page_unroll, hall 0 (by omega), hall 1 (by omega), hall 2 (by omega)]

/-- C8 witness: a run whose first attempt raises and whose second
succeeds returns the second attempt's document, and a run whose three
attempts all raise returns nil. -/
theorem get_page_retry_spec_witness :
    get_page attRetryOnce = some docFull ∧ get_page (netAllFail "u") = none :=
  ⟨(get_page_retry_spec attRetryOnce attRetryOnce 1 docFull).2.1 (by omega)
      (fun j hj => by interval_cases j; rfl) rfl,
   (get_page_retry_spec (netAllFail "u") (netAllFail "u") 0 docFull).2.2
      (fun _ _ => rfl)⟩

/-- C4: a detail page whose main-attributes block is absent is skipped:
`scrape_offer_data` returns with the dataset unchanged (no partial
record appended, nothing raised to the caller), through the
`ValueError` short-circuit of `parse_main_car_details`. -/
theorem scrape_offer_data_skip_no_main (net : String → Nat → FetchOutcome)
    (make model url : String) (data : List Row) (doc : Doc)
    (hfetch : get_page (net url) = some doc) (hmain : doc.dilarData = none) :
    scrape_offer_data net make model url data = .ok data
    ∧ parse_main_car_details (some doc) [] = .error .valueError := by
  constructor
  · simp only [scrape_offer_data, hfetch, scrapeOfferRecord, parse_main_car_details, hmain]
  · simp only [parse_main_car_details, hmain]

/-- C4 witness: on a concrete document lacking the main-attributes
block the dataset is returned unchanged. -/
theorem scrape_offer_data_skip_no_main_witness :
    scrape_offer_data netNoMain "Audi" "A4" "//u" [] = .ok []
    ∧ parse_main_car_details (some docNoMain) [] = .error .valueError :=
  scrape_offer_data_skip_no_main netNoMain "Audi" "A4" "//u" [] docNoMain
    (by rw [get_page_unroll]; rfl) rfl

/-- C10: when every fetch attempt for an offer page raises (so
`get_page` returns a nil document), `scrape_offer_data` absorbs the
failure through the same skip path as a missing main-attributes block
(the `ValueError` of `parse_main_car_details` on a `None` soup): the
dataset is returned unchanged and nothing is raised to the caller. -/
theorem scrape_offer_data_skip_nil_doc (net : String → Nat → FetchOutcome)
    (make model url : String) (data : List Row)
    (hfail : ∀ i, i < 3 → net url i = .requestException) :
    scrape_offer_data net make model url data = .ok data
    ∧ parse_main_car_details none [] = .error .valueError := by
  have h : get_page (net url) = none := by
    rw [get_page_unroll, hfail 0 (by omega), hfail 1 (by omega), hfail 2 (by omega)]
  exact ⟨by simp only [scrape_offer_data, h, scrapeOfferRecord, parse_main_car_details], rfl⟩

/-- C10 witness: with a network that always raises, the dataset comes
back unchanged. -/
theorem scrape_offer_data_skip_nil_doc_witness :
    scrape_offer_data netAllFail "Audi" "A4" "//u" [] = .ok []
    ∧ parse_main_car_details none [] = .error .valueError :=
  scrape_offer_data_skip_nil_doc netAllFail "Audi" "A4" "//u" [] (fun _ _ => rfl)

end Scraper
